import Mathlib

set_option autoImplicit false

/-!
Shallow embedding of the offline-first synchronization subsystem of the
Wellness-coach-ai backend (`backend/app/services/sync_service.py` together
with the data models of `backend/app/models/sync.py`).

Conventions of the embedding:
* timestamps are natural numbers (the server clock `datetime.utcnow()` is an
  explicit `now : Nat` parameter; `datetime.min` is `0`);
* an opaque JSON field map (`dict[str, Any]`) is an association list
  `List (String × Value)` with Python dictionary semantics for get/set/pop;
* the Supabase storage layer is a `Database`: a map from table names to lists
  of rows, where a row is again a field map; `insert` models the server
  assigning `id` and a `created_at` default, `update`/`delete` model the
  PostgREST `.eq` filters used by the service;
* a raised exception is the `Except.error` branch carrying `str(e)`.
-/

namespace WellnessSync

/-- JSON-like scalar values appearing in entry payloads and stored rows. -/
inductive Value where
  | str : String → Value
  | nat : Nat → Value
  | bool : Bool → Value
deriving DecidableEq

/-- An opaque field map (`dict[str, Any]` in the source). -/
abbrev Dict := List (String × Value)

/-- Python `d.get(k)` / `d[k]`: first binding of the key, if any. -/
def dictGet : Dict → String → Option Value
  | [], _ => none
  | (k', v) :: rest, k => if k' = k then some v else dictGet rest k

/-- Python `d[k] = v`: replace the binding in place, or append a new one. -/
def dictSet (d : Dict) (k : String) (v : Value) : Dict :=
  if (dictGet d k).isSome then
    d.map (fun p => if p.1 = k then (k, v) else p)
  else
    d ++ [(k, v)]

/-- Python `d.pop(k, None)`: the removed value (if any) and the remaining map. -/
def dictPop (d : Dict) (k : String) : Option Value × Dict :=
  (dictGet d k, d.filter (fun p => p.1 != k))

/-- Python truthiness of a value (`if server_id:`): empty string, zero and
`False` are falsy. -/
def Value.truthy : Value → Bool
  | .str s => s != ""
  | .nat n => n != 0
  | .bool b => b

/-- SyncService.ENTRY_CONFIG: mapping of entry types to table names and date
fields (sync_service.py lines 28-38). -/
def ENTRY_CONFIG : List (String × String × String) :=
  [("health_metric", "health_metrics", "recorded_at"),
   ("sleep", "sleep_sessions", "start_time"),
   ("exercise", "exercise_sessions", "started_at"),
   ("diet", "diet_entries", "logged_at"),
   ("substance", "substance_entries", "logged_at"),
   ("mood", "mood_entries", "logged_at"),
   ("negativity", "negativity_entries", "logged_at"),
   ("gratitude", "gratitude_entries", "logged_at"),
   ("meditation", "meditation_sessions", "started_at")]

/-- Python `self.ENTRY_CONFIG.get(entry_type)`. -/
def entryConfigGet (entry_type : String) : Option (String × String) :=
  (ENTRY_CONFIG.find? (fun p => p.1 == entry_type)).map (fun p => p.2)

/-- The `action` field of a SyncEntry; pydantic restricts it to this pattern. -/
inductive Action where
  | create : Action
  | update : Action
  | delete : Action
deriving DecidableEq

/-- models/sync.py SyncEntry (the fields the service reads). -/
structure SyncEntry where
  entry_type : String
  local_id : String
  data : Dict
  action : Action
  created_at : Nat
  modified_at : Nat
deriving DecidableEq

/-- One element of `failed_entries`: the dict built in push_changes lines
65-69. -/
structure FailedEntry where
  local_id : String
  entry_type : String
  error : String
deriving DecidableEq

/-- The Supabase storage backing the entry tables: rows per table name, plus
the counter modelling server-assigned identifiers. -/
structure Database where
  tables : String → List Dict
  nextId : Nat

/-- PostgREST `.eq(col, v)` filter on one row. -/
def rowMatches (row : Dict) (col : String) (v : Value) : Bool :=
  dictGet row col == some v

/-- The row actually stored by an INSERT: the server assigns `id` and the
`created_at` column default when the payload does not carry them. -/
def insertRow (nextId now : Nat) (d : Dict) : Dict :=
  let withId := if (dictGet d "id").isSome then d
                else dictSet d "id" (.nat nextId)
  if (dictGet withId "created_at").isSome then withId
  else dictSet withId "created_at" (.nat now)

/-- Storage call `table(name).insert(data).execute()`. -/
def dbInsert (db : Database) (now : Nat) (table_name : String) (d : Dict) :
    Database :=
  { tables := fun t =>
      if t = table_name then db.tables t ++ [insertRow db.nextId now d]
      else db.tables t,
    nextId := db.nextId + 1 }

/-- Applying an UPDATE payload to a row: each listed column is set. -/
def applyUpdate (row : Dict) (d : Dict) : Dict :=
  d.foldl (fun r p => dictSet r p.1 p.2) row

/-- Storage call of the update branch:
`table(name).update(d).eq("id", sid).eq("user_id", user_id).execute()`. -/
def dbUpdateWhere (db : Database) (table_name : String) (d : Dict)
    (sid : Value) (user_id : String) : Database :=
  { db with tables := fun t =>
      if t = table_name then
        (db.tables t).map (fun row =>
          if rowMatches row "id" sid && rowMatches row "user_id" (.str user_id)
          then applyUpdate row d
          else row)
      else db.tables t }

/-- Storage call of the delete branch:
`table(name).delete().eq("id", sid).eq("user_id", user_id).execute()`. -/
def dbDeleteWhere (db : Database) (table_name : String) (sid : Value)
    (user_id : String) : Database :=
  { db with tables := fun t =>
      if t = table_name then
        (db.tables t).filter (fun row =>
          !(rowMatches row "id" sid &&
            rowMatches row "user_id" (.str user_id)))
      else db.tables t }

/-- SyncService._process_entry (sync_service.py lines 86-118): resolve the
entry type in ENTRY_CONFIG (raising ValueError when absent), stamp the
caller's user_id into a copy of the payload, then dispatch on the action.
An update or delete whose payload lacks a truthy `id` performs no storage
call at all (`if server_id:` guards). -/
def processEntry (db : Database) (now : Nat) (user_id : String)
    (entry : SyncEntry) : Except String Database :=
  match entryConfigGet entry.entry_type with
  | none => .error ("Unknown entry type: " ++ entry.entry_type)
  | some cfg =>
      let table_name := cfg.1
      let data := dictSet entry.data "user_id" (.str user_id)
      match entry.action with
      | .create => .ok (dbInsert db now table_name data)
      | .update =>
          match dictPop data "id" with
          | (some sid, rest) =>
              if sid.truthy then
                .ok (dbUpdateWhere db table_name rest sid user_id)
              else .ok db
          | (none, _) => .ok db
      | .delete =>
          match dictGet data "id" with
          | some sid =>
              if sid.truthy then
                .ok (dbDeleteWhere db table_name sid user_id)
              else .ok db
          | none => .ok db

/-- The entry loop of push_changes (lines 54-69): state is the database, the
running `synced_count` and the accumulated `failed_entries`; an exception from
_process_entry is caught and recorded, and the loop continues. -/
def pushLoop (now : Nat) (user_id : String) :
    Database × Nat × List FailedEntry → List SyncEntry →
    Database × Nat × List FailedEntry
  | acc, [] => acc
  | (db, synced, failed), entry :: rest =>
      match processEntry db now user_id entry with
      | .ok db' => pushLoop now user_id (db', synced + 1, failed) rest
      | .error e =>
          pushLoop now user_id
            (db, synced,
             failed ++ [{ local_id := entry.local_id,
                          entry_type := entry.entry_type,
                          error := e }])
            rest

/-- One row of the `sync_status` table (the dict of _update_sync_status
lines 225-231, with its typed columns). -/
structure StatusRow where
  user_id : String
  device_id : String
  last_sync_at : Nat
  pending_changes : Nat
  sync_errors : List FailedEntry
deriving DecidableEq

/-- Storage call `table("sync_status").upsert(data, on_conflict="user_id,device_id")`:
rows whose conflict key matches are overwritten, otherwise the row is
appended. -/
def upsertSyncStatus (rows : List StatusRow) (d : StatusRow) :
    List StatusRow :=
  if rows.any (fun r => r.user_id == d.user_id && r.device_id == d.device_id)
  then
    rows.map (fun r =>
      if r.user_id == d.user_id && r.device_id == d.device_id then d else r)
  else rows ++ [d]

/-- The whole server-side state the sync service touches: the entry tables
and the `sync_status` table. -/
structure ServerState where
  db : Database
  sync_status : List StatusRow

/-- models/sync.py SyncPushResponse. -/
structure SyncPushResponse where
  synced_count : Nat
  failed_entries : List FailedEntry
  server_timestamp : Nat
deriving DecidableEq

/-- SyncService.push_changes (lines 43-84): process every entry, then update
the sync status unconditionally (upsert keyed on user_id,device_id with
`last_sync_at = now`, `pending_changes = len(failed_entries)` and the failure
list), and return the counts. The `last_sync_at` request field is unused by
the source. -/
def push_changes (st : ServerState) (now : Nat) (user_id device_id : String)
    (entries : List SyncEntry) (_last_sync_at : Option Nat) :
    ServerState × SyncPushResponse :=
  match pushLoop now user_id (st.db, 0, []) entries with
  | (db', synced, failed) =>
      ({ db := db',
         sync_status := upsertSyncStatus st.sync_status
           { user_id := user_id, device_id := device_id,
             last_sync_at := now, pending_changes := failed.length,
             sync_errors := failed } },
       { synced_count := synced, failed_entries := failed,
         server_timestamp := now })

/-- Nat value of a column, for ordering feeds (missing or non-numeric sorts
lowest, like SQL NULLS LAST under descending order). -/
def natKey (row : Dict) (col : String) : Nat :=
  match dictGet row col with
  | some (.nat n) => n
  | _ => 0

/-- Descending insertion for ORDER BY col DESC. -/
def insertDescBy (key : Dict → Nat) (r : Dict) : List Dict → List Dict
  | [] => [r]
  | x :: xs => if key x < key r then r :: x :: xs else x :: insertDescBy key r xs

/-- ORDER BY key DESC over a list of rows. -/
def sortDescBy (key : Dict → Nat) (l : List Dict) : List Dict :=
  l.foldr (insertDescBy key) []

/-- Shared shape of supabase.py feed queries: select the user's rows, order
descending on a date column, take the first `lim`. -/
def selectRecent (db : Database) (table_name date_field : String)
    (user_id : String) (lim : Nat) : List Dict :=
  (sortDescBy (fun r => natKey r date_field)
    ((db.tables table_name).filter
      (fun row => rowMatches row "user_id" (.str user_id)))).take lim

/-- SupabaseService.get_recent_analyses (supabase.py lines 350-360). -/
def get_recent_analyses (db : Database) (user_id : String) (lim : Nat) :
    List Dict :=
  selectRecent db "daily_analyses" "analysis_date" user_id lim

/-- SupabaseService.get_podcasts (supabase.py lines 393-409). -/
def get_podcasts (db : Database) (user_id : String) (lim : Nat) : List Dict :=
  selectRecent db "daily_podcasts" "podcast_date" user_id lim

/-- models/sync.py SyncPullEntry. -/
structure SyncPullEntry where
  entry_type : String
  server_id : Option Value
  data : Dict
  action : String
  modified_at : Value
deriving DecidableEq

/-- The `.gte("created_at", since.isoformat())` filter of
_pull_table_changes: SQL comparison on the `created_at` column; a row
without a comparable value is not selected. -/
def createdAtGte (row : Dict) (since : Nat) : Bool :=
  match dictGet row "created_at" with
  | some (.nat t) => decide (since ≤ t)
  | _ => false

/-- SyncService._pull_table_changes (lines 156-182): select the user's rows
of `table_name` with `created_at` at or after `since` (the column name is
hardcoded in the source, whatever date field the registry declares), and wrap
each row as an upsert Pull Entry whose `modified_at` is `row.get("created_at")`
defaulting to the current time. -/
def pullTableChanges (db : Database) (now : Nat)
    (user_id table_name entry_type : String) (since : Nat) :
    List SyncPullEntry :=
  ((db.tables table_name).filter (fun row =>
      rowMatches row "user_id" (.str user_id) && createdAtGte row since)).map
    (fun row =>
      { entry_type := entry_type,
        server_id := dictGet row "id",
        data := row,
        action := "upsert",
        modified_at := (dictGet row "created_at").getD (.nat now) })

/-- models/sync.py SyncPullResponse. -/
structure SyncPullResponse where
  entries : List SyncPullEntry
  analyses : List Dict
  podcasts : List Dict
  server_timestamp : Nat
  has_more : Bool
deriving DecidableEq

/-- SyncService.pull_changes (lines 120-154): the checkpoint defaults to
`datetime.min` (here `0`) when `last_sync_at` is absent; every registered
entry type contributes its table's changes in registry order, then the
analyses and podcasts feeds are attached. -/
def pull_changes (st : ServerState) (now : Nat)
    (user_id _device_id : String) (last_sync_at : Option Nat) :
    SyncPullResponse :=
  let since := match last_sync_at with
               | some t => t
               | none => 0
  { entries := ENTRY_CONFIG.foldl
      (fun acc p => acc ++ pullTableChanges st.db now user_id p.2.1 p.1 since)
      [],
    analyses := get_recent_analyses st.db user_id 7,
    podcasts := get_podcasts st.db user_id 7,
    server_timestamp := now,
    has_more := false }

/-- models/sync.py SyncStatus. -/
structure SyncStatus where
  device_id : String
  last_sync_at : Option Nat
  pending_changes : Nat
  sync_errors : List FailedEntry
  is_syncing : Bool
deriving DecidableEq

/-- The `.select("*").eq("user_id", u).eq("device_id", d).single().execute()`
query of get_sync_status: PostgREST's `.single()` requires exactly one
matching row and raises an APIError (PGRST116) on zero (or several) rows —
the repository's own comments on its `maybe_single` calls (supabase.py lines
334 and 520, "Use maybe_single to handle 0 rows without error") record this
behaviour of `.single()`. -/
def singleStatusQuery (rows : List StatusRow) (user_id device_id : String) :
    Except String StatusRow :=
  match rows.filter
      (fun r => r.user_id == user_id && r.device_id == device_id) with
  | [r] => .ok r
  | _ => .error "JSON object requested, multiple (or no) rows returned"

/-- SyncService.get_sync_status (lines 184-214): query the single
sync_status row of `(user_id, device_id)` with `.single()` and report it
(with `is_syncing = False`). The method has no try/except, so the APIError
that `.single()` raises when no row exists propagates to the caller; the
default never-synced branch of lines 208-214 guards only against falsy
`result.data` after a successful `.single()` and is unreachable in the
zero-row case. -/
def get_sync_status (st : ServerState) (user_id device_id : String) :
    Except String SyncStatus :=
  match singleStatusQuery st.sync_status user_id device_id with
  | .error e => .error e
  | .ok r =>
      .ok { device_id := device_id,
            last_sync_at := some r.last_sync_at,
            pending_changes := r.pending_changes,
            sync_errors := r.sync_errors,
            is_syncing := false }

/-- models/sync.py SyncConflict. -/
structure SyncConflict where
  entry_type : String
  local_id : String
  server_id : String
  local_data : Dict
  server_data : Dict
  local_modified_at : Nat
  server_modified_at : Nat
deriving DecidableEq

/-- SyncService.get_conflicts (lines 238-246): the source returns the empty
list unconditionally (last-write-wins, conflicts are not tracked). -/
def get_conflicts (_st : ServerState) (_user_id _device_id : String) :
    List SyncConflict :=
  []

/-- SyncService.reset_sync (lines 257-271): delete the sync_status rows of
`(user_id, device_id)`. -/
def reset_sync (st : ServerState) (user_id device_id : String) :
    ServerState :=
  { st with sync_status :=
      (st.sync_status.filter
        (fun r => !(r.user_id == user_id && r.device_id == device_id))) }

/-! ### Dictionary lemmas -/

theorem dictGet_append (a b : Dict) (k : String) :
    dictGet (a ++ b) k =
      match dictGet a k with
      | some v => some v
      | none => dictGet b k := by
  induction a with
  | nil => rfl
  | cons p rest ih =>
      cases p with
      | mk k' v =>
          by_cases h : k' = k
          · simp [dictGet, h]
          · simp [dictGet, h, ih]

theorem dictGet_mapReplace (d : Dict) (k : String) (v : Value) :
    dictGet (d.map (fun p => if p.1 = k then (k, v) else p)) k =
      if (dictGet d k).isSome then some v else none := by
  induction d with
  | nil => rfl
  | cons p rest ih =>
      obtain ⟨k', w⟩ := p
      by_cases h : k' = k
      · subst h
        simp only [List.map_cons]
        simp [dictGet]
      · simp only [List.map_cons]
        rw [if_neg (show ¬((k', w).1 = k) from h)]
        simp [dictGet, h, ih]

theorem dictGet_mapReplace_ne (d : Dict) (k : String) (v : Value)
    (k' : String) (h : k' ≠ k) :
    dictGet (d.map (fun p => if p.1 = k then (k, v) else p)) k' =
      dictGet d k' := by
  induction d with
  | nil => rfl
  | cons p rest ih =>
      obtain ⟨k0, w⟩ := p
      by_cases hk : k0 = k
      · subst hk
        simp only [List.map_cons]
        simp [dictGet, Ne.symm h, ih]
      · simp only [List.map_cons]
        rw [if_neg (show ¬((k0, w).1 = k) from hk)]
        by_cases hk' : k0 = k'
        · subst hk'
          simp [dictGet]
        · simp [dictGet, hk', ih]

theorem dictGet_none_of_isSome_false (d : Dict) (k : String)
    (h : ¬(dictGet d k).isSome = true) : dictGet d k = none := by
  cases hd : dictGet d k with
  | some w => rw [hd] at h; simp at h
  | none => rfl

theorem dictGet_dictSet_self (d : Dict) (k : String) (v : Value) :
    dictGet (dictSet d k v) k = some v := by
  unfold dictSet
  by_cases h : (dictGet d k).isSome
  · simp [h, dictGet_mapReplace]
  · rw [if_neg h, dictGet_append, dictGet_none_of_isSome_false d k h]
    simp [dictGet]

theorem dictGet_dictSet_ne (d : Dict) (k : String) (v : Value)
    (k' : String) (h : k' ≠ k) :
    dictGet (dictSet d k v) k' = dictGet d k' := by
  unfold dictSet
  by_cases hs : (dictGet d k).isSome
  · simp [hs, dictGet_mapReplace_ne d k v k' h]
  · rw [if_neg hs, dictGet_append]
    cases hd : dictGet d k' with
    | some w => simp
    | none => simp [dictGet, Ne.symm h]

/-! ### Push loop accounting lemmas -/

theorem pushLoop_count (now : Nat) (user_id : String)
    (entries : List SyncEntry) :
    ∀ db synced failed,
      (pushLoop now user_id (db, synced, failed) entries).2.1 +
        ((pushLoop now user_id (db, synced, failed) entries).2.2).length =
      synced + failed.length + entries.length := by
  induction entries with
  | nil => intro db synced failed; simp [pushLoop]
  | cons e rest ih =>
      intro db synced failed
      cases h : processEntry db now user_id e with
      | ok db' =>
          rw [show pushLoop now user_id (db, synced, failed) (e :: rest) =
                pushLoop now user_id (db', synced + 1, failed) rest by
              simp [pushLoop, h]]
          rw [ih]
          simp only [List.length_cons]
          omega
      | error err =>
          rw [show pushLoop now user_id (db, synced, failed) (e :: rest) =
                pushLoop now user_id
                  (db, synced,
                   failed ++ [{ local_id := e.local_id,
                                entry_type := e.entry_type,
                                error := err }]) rest by
              simp [pushLoop, h]]
          rw [ih]
          simp only [List.length_cons, List.length_append, List.length_nil]
          omega

/-- C3: for every batch, the push response satisfies
`synced_count + len(failed_entries) == len(entries)`: each entry is counted
exactly once, either as synced or as failed. -/
theorem C3_push_partition (st : ServerState) (now : Nat)
    (user_id device_id : String) (entries : List SyncEntry)
    (last_sync_at : Option Nat) :
    (push_changes st now user_id device_id entries last_sync_at).2.synced_count
      + ((push_changes st now user_id device_id entries
            last_sync_at).2.failed_entries).length
      = entries.length := by
  have h := pushLoop_count now user_id entries st.db 0 []
  rcases hp : pushLoop now user_id (st.db, 0, []) entries with ⟨db', synced, failed⟩
  rw [hp] at h
  simp only [push_changes, hp]
  simpa using h

theorem pushLoop_append (now : Nat) (user_id : String) :
    ∀ (xs ys : List SyncEntry) (acc : Database × Nat × List FailedEntry),
      pushLoop now user_id acc (xs ++ ys) =
        pushLoop now user_id (pushLoop now user_id acc xs) ys := by
  intro xs
  induction xs with
  | nil => intro ys acc; obtain ⟨db, synced, failed⟩ := acc; rfl
  | cons e rest ih =>
      intro ys acc
      obtain ⟨db, synced, failed⟩ := acc
      rw [List.cons_append]
      cases h : processEntry db now user_id e with
      | ok db' =>
          rw [show pushLoop now user_id (db, synced, failed)
                (e :: (rest ++ ys)) =
              pushLoop now user_id (db', synced + 1, failed) (rest ++ ys) by
            simp [pushLoop, h]]
          rw [show pushLoop now user_id (db, synced, failed) (e :: rest) =
              pushLoop now user_id (db', synced + 1, failed) rest by
            simp [pushLoop, h]]
          exact ih ys _
      | error err =>
          rw [show pushLoop now user_id (db, synced, failed)
                (e :: (rest ++ ys)) =
              pushLoop now user_id
                (db, synced,
                 failed ++ [{ local_id := e.local_id,
                              entry_type := e.entry_type,
                              error := err }]) (rest ++ ys) by
            simp [pushLoop, h]]
          rw [show pushLoop now user_id (db, synced, failed) (e :: rest) =
              pushLoop now user_id
                (db, synced,
                 failed ++ [{ local_id := e.local_id,
                              entry_type := e.entry_type,
                              error := err }]) rest by
            simp [pushLoop, h]]
          exact ih ys _

theorem pushLoop_shift (now : Nat) (user_id : String) :
    ∀ (entries : List SyncEntry) (db : Database) (synced : Nat)
      (failed : List FailedEntry),
      pushLoop now user_id (db, synced, failed) entries =
        ((pushLoop now user_id (db, 0, []) entries).1,
         synced + (pushLoop now user_id (db, 0, []) entries).2.1,
         failed ++ (pushLoop now user_id (db, 0, []) entries).2.2) := by
  intro entries
  induction entries with
  | nil => intro db synced failed; simp [pushLoop]
  | cons e rest ih =>
      intro db synced failed
      cases h : processEntry db now user_id e with
      | ok db' =>
          rw [show pushLoop now user_id (db, synced, failed) (e :: rest) =
              pushLoop now user_id (db', synced + 1, failed) rest by
            simp [pushLoop, h]]
          rw [show pushLoop now user_id (db, 0, []) (e :: rest) =
              pushLoop now user_id (db', 1, []) rest by
            simp [pushLoop, h]]
          rw [ih db' (synced + 1) failed, ih db' 1 []]
          simp [Nat.add_assoc]
      | error err =>
          rw [show pushLoop now user_id (db, synced, failed) (e :: rest) =
              pushLoop now user_id
                (db, synced,
                 failed ++ [{ local_id := e.local_id,
                              entry_type := e.entry_type,
                              error := err }]) rest by
            simp [pushLoop, h]]
          rw [show pushLoop now user_id (db, 0, []) (e :: rest) =
              pushLoop now user_id
                (db, 0,
                 [{ local_id := e.local_id, entry_type := e.entry_type,
                    error := err }]) rest by
            simp [pushLoop, h]]
          rw [ih db synced
            (failed ++ [FailedEntry.mk e.local_id e.entry_type err]),
            ih db 0 [FailedEntry.mk e.local_id e.entry_type err]]
          simp

theorem processEntry_unknown (db : Database) (now : Nat) (user_id : String)
    (entry : SyncEntry) (h : entryConfigGet entry.entry_type = none) :
    processEntry db now user_id entry =
      .error ("Unknown entry type: " ++ entry.entry_type) := by
  simp [processEntry, h]

/-- An empty server state: no rows in any table, no sync status records. -/
def emptyState : ServerState :=
  { db := { tables := fun _ => [], nextId := 1 }, sync_status := [] }

/-- A well-formed mood creation entry, as in the spec's push scenario. -/
def moodEntry : SyncEntry :=
  { entry_type := "mood", local_id := "m1",
    data := [("mood_score", .nat 7)], action := .create,
    created_at := 0, modified_at := 0 }

/-- An entry with an unregistered entry type. -/
def bogusEntry : SyncEntry :=
  { entry_type := "bogus_type", local_id := "b1",
    data := [("mood_score", .nat 7)], action := .create,
    created_at := 0, modified_at := 0 }

/-- C4: for every entry whose entry_type is not registered in the Entry
Registry, push catches the resulting exception, records the entry in
failed_entries with its original local_id, its entry_type, and a
human-readable UnknownEntryType-class error string, and continues processing
the remaining entries of the batch; already-applied entries stay applied.
Formally: the batch with the unknown entry produces the failure record,
while its synced count, its final database and the rest of the failure list
are exactly those of the batch without the unknown entry. -/
theorem C4_unknown_entry_type (st : ServerState) (now : Nat)
    (user_id device_id : String) (last_sync_at : Option Nat)
    (pre post : List SyncEntry) (e : SyncEntry)
    (h : entryConfigGet e.entry_type = none) :
    ({ local_id := e.local_id, entry_type := e.entry_type,
       error := "Unknown entry type: " ++ e.entry_type } : FailedEntry) ∈
      (push_changes st now user_id device_id (pre ++ e :: post)
        last_sync_at).2.failed_entries ∧
    (push_changes st now user_id device_id (pre ++ e :: post)
        last_sync_at).2.synced_count =
      (push_changes st now user_id device_id (pre ++ post)
        last_sync_at).2.synced_count ∧
    ((push_changes st now user_id device_id (pre ++ e :: post)
        last_sync_at).2.failed_entries).length =
      ((push_changes st now user_id device_id (pre ++ post)
        last_sync_at).2.failed_entries).length + 1 ∧
    (push_changes st now user_id device_id (pre ++ e :: post)
        last_sync_at).1.db =
      (push_changes st now user_id device_id (pre ++ post)
        last_sync_at).1.db := by
  rcases hA : pushLoop now user_id (st.db, 0, []) pre with ⟨db1, n1, f1⟩
  rcases hQ : pushLoop now user_id (db1, 0, []) post with ⟨db2, n2, f2⟩
  have hstep : pushLoop now user_id (db1, n1, f1) (e :: post) =
      pushLoop now user_id
        (db1, n1,
         f1 ++ [{ local_id := e.local_id, entry_type := e.entry_type,
                  error := "Unknown entry type: " ++ e.entry_type }]) post := by
    simp [pushLoop, processEntry_unknown db1 now user_id e h]
  have h1 : pushLoop now user_id (st.db, 0, []) (pre ++ e :: post) =
      (db2, n1 + n2,
       (f1 ++ [{ local_id := e.local_id, entry_type := e.entry_type,
                 error := "Unknown entry type: " ++ e.entry_type }]) ++ f2) := by
    rw [pushLoop_append, hA, hstep, pushLoop_shift, hQ]
  have h2 : pushLoop now user_id (st.db, 0, []) (pre ++ post) =
      (db2, n1 + n2, f1 ++ f2) := by
    rw [pushLoop_append, hA, pushLoop_shift, hQ]
  refine ⟨?_, ?_, ?_, ?_⟩
  · simp [push_changes, h1]
  · simp [push_changes, h1, h2]
  · simp only [push_changes, h1, h2]
    simp [List.length_append]
    omega
  · simp [push_changes, h1, h2]

/-- Witness for C4 at the spec's own scenario: a mood create plus a
bogus-typed entry. -/
theorem C4_unknown_entry_type_witness :
    ({ local_id := "b1", entry_type := "bogus_type",
       error := "Unknown entry type: bogus_type" } : FailedEntry) ∈
      (push_changes emptyState 5 "u" "d" ([moodEntry] ++ bogusEntry :: [])
        none).2.failed_entries ∧
    (push_changes emptyState 5 "u" "d" ([moodEntry] ++ bogusEntry :: [])
        none).2.synced_count =
      (push_changes emptyState 5 "u" "d" ([moodEntry] ++ [])
        none).2.synced_count ∧
    ((push_changes emptyState 5 "u" "d" ([moodEntry] ++ bogusEntry :: [])
        none).2.failed_entries).length =
      ((push_changes emptyState 5 "u" "d" ([moodEntry] ++ [])
        none).2.failed_entries).length + 1 ∧
    (push_changes emptyState 5 "u" "d" ([moodEntry] ++ bogusEntry :: [])
        none).1.db =
      (push_changes emptyState 5 "u" "d" ([moodEntry] ++ [])
        none).1.db :=
  C4_unknown_entry_type emptyState 5 "u" "d" none [moodEntry] []
    bogusEntry (by decide)

/-! ### Missing-id updates and deletes (claim C1) -/

theorem processEntry_missing_id (db : Database) (now : Nat) (user_id : String)
    (entry : SyncEntry) (table date_field : String)
    (hcfg : entryConfigGet entry.entry_type = some (table, date_field))
    (ha : entry.action = Action.update ∨ entry.action = Action.delete)
    (hid : dictGet entry.data "id" = none) :
    processEntry db now user_id entry = .ok db := by
  have hid' : dictGet (dictSet entry.data "user_id" (.str user_id)) "id" =
      none := by
    rw [dictGet_dictSet_ne _ _ _ _ (by decide)]
    exact hid
  rcases ha with ha | ha
  · simp [processEntry, hcfg, ha, dictPop, hid']
  · simp [processEntry, hcfg, ha, hid']

/-- An update entry whose payload has no `id`, as in claim C1. -/
def noIdUpdateEntry : SyncEntry :=
  { entry_type := "mood", local_id := "a1",
    data := [("mood_score", .nat 7)], action := .update,
    created_at := 0, modified_at := 0 }

/-- C1 counterexample: pushing an update entry whose data payload contains no
`id` field yields `synced_count = 1` and an empty `failed_entries` — the
entry is treated as a success, not recorded as a malformed failure as the
claim states. -/
theorem C1_counterexample :
    (push_changes emptyState 5 "u" "d" [noIdUpdateEntry] none).2.synced_count
        = 1 ∧
    (push_changes emptyState 5 "u" "d" [noIdUpdateEntry]
        none).2.failed_entries = [] := by
  constructor
  · rfl
  · rfl

/-- C1 (amended): for every push entry with action `update` (and likewise
`delete`) whose data payload contains no `id` field, push treats the entry as
a silent success: it is included in synced_count, it does not appear in
failed_entries, and no storage row is created, modified or deleted. -/
theorem C1_missing_id_silent_success (st : ServerState) (now : Nat)
    (user_id device_id : String) (last_sync_at : Option Nat)
    (entry : SyncEntry) (table date_field : String)
    (hcfg : entryConfigGet entry.entry_type = some (table, date_field))
    (ha : entry.action = Action.update ∨ entry.action = Action.delete)
    (hid : dictGet entry.data "id" = none) :
    (push_changes st now user_id device_id [entry]
        last_sync_at).2.synced_count = 1 ∧
    (push_changes st now user_id device_id [entry]
        last_sync_at).2.failed_entries = [] ∧
    (push_changes st now user_id device_id [entry] last_sync_at).1.db =
      st.db := by
  have hp : processEntry st.db now user_id entry = .ok st.db :=
    processEntry_missing_id st.db now user_id entry table date_field hcfg ha
      hid
  refine ⟨?_, ?_, ?_⟩ <;> simp [push_changes, pushLoop, hp]

/-- Witness for the amended C1 at a concrete malformed update entry. -/
theorem C1_missing_id_silent_success_witness :
    (push_changes emptyState 7 "u" "d" [noIdUpdateEntry]
        none).2.synced_count = 1 ∧
    (push_changes emptyState 7 "u" "d" [noIdUpdateEntry]
        none).2.failed_entries = [] ∧
    (push_changes emptyState 7 "u" "d" [noIdUpdateEntry] none).1.db =
      emptyState.db :=
  C1_missing_id_silent_success emptyState 7 "u" "d" none noIdUpdateEntry
    "mood_entries" "logged_at" (by decide) (Or.inl rfl) (by decide)

/-! ### Idempotent delete of an absent row (claim C5) -/

theorem processEntry_delete_absent (db : Database) (now : Nat)
    (user_id : String) (entry : SyncEntry) (table date_field : String)
    (sid : Value)
    (hcfg : entryConfigGet entry.entry_type = some (table, date_field))
    (ha : entry.action = Action.delete)
    (hid : dictGet entry.data "id" = some sid)
    (ht : sid.truthy = true)
    (hno : ∀ row ∈ db.tables table, rowMatches row "id" sid = false) :
    processEntry db now user_id entry = .ok db := by
  have hid' : dictGet (dictSet entry.data "user_id" (.str user_id)) "id" =
      some sid := by
    rw [dictGet_dictSet_ne _ _ _ _ (by decide)]
    exact hid
  simp only [processEntry, hcfg, ha, hid', ht, if_true]
  congr 1
  obtain ⟨tabs, nid⟩ := db
  unfold dbDeleteWhere
  simp only [Database.mk.injEq, and_true]
  funext t
  by_cases htt : t = table
  · subst htt
    rw [if_pos rfl]
    rw [List.filter_eq_self]
    intro row hrow
    have hm := hno row hrow
    simp [hm]
  · simp [htt]

/-- C5: for every entry with action `delete` carrying a truthy `id` that does
not match any row of its backing table, push treats the entry as a success
(idempotent no-op): it does not raise, the entry is included in synced_count,
it does not appear in failed_entries, and the database is unchanged. -/
theorem C5_idempotent_delete (st : ServerState) (now : Nat)
    (user_id device_id : String) (last_sync_at : Option Nat)
    (entry : SyncEntry) (table date_field : String) (sid : Value)
    (hcfg : entryConfigGet entry.entry_type = some (table, date_field))
    (ha : entry.action = Action.delete)
    (hid : dictGet entry.data "id" = some sid)
    (ht : sid.truthy = true)
    (hno : ∀ row ∈ st.db.tables table, rowMatches row "id" sid = false) :
    (push_changes st now user_id device_id [entry]
        last_sync_at).2.synced_count = 1 ∧
    (push_changes st now user_id device_id [entry]
        last_sync_at).2.failed_entries = [] ∧
    (push_changes st now user_id device_id [entry] last_sync_at).1.db =
      st.db := by
  have hp : processEntry st.db now user_id entry = .ok st.db :=
    processEntry_delete_absent st.db now user_id entry table date_field sid
      hcfg ha hid ht hno
  refine ⟨?_, ?_, ?_⟩ <;> simp [push_changes, pushLoop, hp]

/-- A delete entry naming a server id absent from storage. -/
def absentDeleteEntry : SyncEntry :=
  { entry_type := "mood", local_id := "a2",
    data := [("id", .nat 99)], action := .delete,
    created_at := 0, modified_at := 0 }

/-- Witness for C5: deleting id 99 from an empty mood table succeeds. -/
theorem C5_idempotent_delete_witness :
    (push_changes emptyState 9 "u" "d" [absentDeleteEntry]
        none).2.synced_count = 1 ∧
    (push_changes emptyState 9 "u" "d" [absentDeleteEntry]
        none).2.failed_entries = [] ∧
    (push_changes emptyState 9 "u" "d" [absentDeleteEntry] none).1.db =
      emptyState.db :=
  C5_idempotent_delete emptyState 9 "u" "d" none absentDeleteEntry
    "mood_entries" "logged_at" (.nat 99) (by decide) rfl (by decide)
    (by decide) (by intro row hrow; simp [emptyState] at hrow)

/-! ### Sync status lemmas -/

theorem find?_filter_not {α : Type} (p : α → Bool) (l : List α) :
    (l.filter (fun r => !p r)).find? p = none := by
  induction l with
  | nil => rfl
  | cons a rest ih =>
      by_cases h : p a
      · simp [List.filter, h, ih]
      · simp only [List.filter]
        rw [show (!p a) = true by simp [h]]
        simp [List.find?, h, ih]

theorem filter_map_overwrite {α : Type} (p : α → Bool) (rec : α)
    (hrec : p rec = true) (l : List α) :
    (l.map (fun r => if p r then rec else r)).filter p =
      List.replicate (l.countP p) rec := by
  induction l with
  | nil => rfl
  | cons a rest ih =>
      by_cases ha : p a
      · simp [ha, hrec, ih, List.countP_cons, List.replicate_succ]
      · simp [ha, ih, List.countP_cons]

theorem filter_not_map_overwrite {α : Type} (p : α → Bool) (rec : α)
    (hrec : p rec = true) (l : List α) :
    (l.map (fun r => if p r then rec else r)).filter (fun r => !p r) =
      l.filter (fun r => !p r) := by
  induction l with
  | nil => rfl
  | cons a rest ih =>
      by_cases ha : p a
      · simp [ha, hrec, ih]
      · simp [ha, ih]

theorem upsertSyncStatus_filter_key (rows : List StatusRow) (rec : StatusRow)
    (h : rows.countP
        (fun r => r.user_id == rec.user_id && r.device_id == rec.device_id)
        ≤ 1) :
    (upsertSyncStatus rows rec).filter
        (fun r => r.user_id == rec.user_id && r.device_id == rec.device_id)
      = [rec] := by
  have hrec : (rec.user_id == rec.user_id && rec.device_id == rec.device_id)
      = true := by simp
  unfold upsertSyncStatus
  by_cases hany : rows.any
      (fun r => r.user_id == rec.user_id && r.device_id == rec.device_id)
  · rw [if_pos hany,
      filter_map_overwrite
        (fun r => r.user_id == rec.user_id && r.device_id == rec.device_id)
        rec hrec rows]
    have hpos : 0 < rows.countP
        (fun r => r.user_id == rec.user_id && r.device_id == rec.device_id) :=
      List.countP_pos_iff.mpr (by simpa using List.any_eq_true.mp hany)
    have hone : rows.countP
        (fun r => r.user_id == rec.user_id && r.device_id == rec.device_id)
        = 1 := by omega
    rw [hone]
    rfl
  · rw [if_neg hany, List.filter_append]
    have hnil : rows.filter
        (fun r => r.user_id == rec.user_id && r.device_id == rec.device_id)
        = [] := by
      rw [List.filter_eq_nil_iff]
      intro a ha
      have hf := List.any_eq_false.mp (Bool.eq_false_iff.mpr hany) a ha
      simpa using hf
    rw [hnil]
    simp [hrec]

theorem upsertSyncStatus_filter_nonkey (rows : List StatusRow)
    (rec : StatusRow) :
    (upsertSyncStatus rows rec).filter
        (fun r =>
          !(r.user_id == rec.user_id && r.device_id == rec.device_id))
      = rows.filter
          (fun r =>
            !(r.user_id == rec.user_id && r.device_id == rec.device_id)) := by
  have hrec : (rec.user_id == rec.user_id && rec.device_id == rec.device_id)
      = true := by simp
  unfold upsertSyncStatus
  by_cases hany : rows.any
      (fun r => r.user_id == rec.user_id && r.device_id == rec.device_id)
  · rw [if_pos hany]
    exact filter_not_map_overwrite
      (fun r => r.user_id == rec.user_id && r.device_id == rec.device_id)
      rec hrec rows
  · rw [if_neg hany, List.filter_append]
    simp [hrec]

/-- C7: after every push call, regardless of how many entries succeeded or
failed, the sync_status record keyed by (user_id, device_id) is upserted to
exactly the single record with last_sync_at = now, pending_changes =
len(failed_entries) and sync_errors = the failure list, while records of
every other (user, device) key are untouched; the hypothesis is the
database's uniqueness constraint on the conflict key. -/
theorem C7_status_upsert (st : ServerState) (now : Nat)
    (user_id device_id : String) (entries : List SyncEntry)
    (last_sync_at : Option Nat)
    (h : st.sync_status.countP
        (fun r => r.user_id == user_id && r.device_id == device_id) ≤ 1) :
    ((push_changes st now user_id device_id entries
        last_sync_at).1.sync_status.filter
        (fun r => r.user_id == user_id && r.device_id == device_id)) =
      [{ user_id := user_id, device_id := device_id, last_sync_at := now,
         pending_changes :=
           ((push_changes st now user_id device_id entries
              last_sync_at).2.failed_entries).length,
         sync_errors :=
           (push_changes st now user_id device_id entries
              last_sync_at).2.failed_entries }] ∧
    ((push_changes st now user_id device_id entries
        last_sync_at).1.sync_status.filter
        (fun r => !(r.user_id == user_id && r.device_id == device_id))) =
      st.sync_status.filter
        (fun r => !(r.user_id == user_id && r.device_id == device_id)) := by
  rcases hp : pushLoop now user_id (st.db, 0, []) entries with ⟨db', n, f⟩
  constructor
  · simp only [push_changes, hp]
    exact upsertSyncStatus_filter_key st.sync_status
      { user_id := user_id, device_id := device_id, last_sync_at := now,
        pending_changes := f.length, sync_errors := f } h
  · simp only [push_changes, hp]
    exact upsertSyncStatus_filter_nonkey st.sync_status
      { user_id := user_id, device_id := device_id, last_sync_at := now,
        pending_changes := f.length, sync_errors := f }

/-- Witness for C7 at a concrete empty push. -/
theorem C7_status_upsert_witness :
    ((push_changes emptyState 3 "u" "d" [] none).1.sync_status.filter
        (fun r => r.user_id == "u" && r.device_id == "d")) =
      [{ user_id := "u", device_id := "d", last_sync_at := 3,
         pending_changes :=
           ((push_changes emptyState 3 "u" "d" [] none).2.failed_entries).length,
         sync_errors :=
           (push_changes emptyState 3 "u" "d" [] none).2.failed_entries }] ∧
    ((push_changes emptyState 3 "u" "d" [] none).1.sync_status.filter
        (fun r => !(r.user_id == "u" && r.device_id == "d"))) =
      emptyState.sync_status.filter
        (fun r => !(r.user_id == "u" && r.device_id == "d")) :=
  C7_status_upsert emptyState 3 "u" "d" [] none (by decide)

theorem filter_filter_not {α : Type} (p : α → Bool) (l : List α) :
    (l.filter (fun r => !p r)).filter p = [] := by
  rw [List.filter_eq_nil_iff]
  intro a ha
  have h2 := (List.mem_filter.mp ha).2
  simp only [Bool.not_eq_true'] at h2
  simp [h2]

/-- C8, the code evaluated at the claim's input: reset deletes the
(user_id, device_id) sync_status row, and the subsequent get_sync_status
call fails — its `.single()` query raises on zero rows and the method has no
exception handler — instead of returning the default never-synced status
the claim requires; the default branch of the source is unreachable in the
zero-row case. -/
theorem C8_reset_then_status_raises (st : ServerState)
    (user_id device_id : String) :
    get_sync_status (reset_sync st user_id device_id) user_id device_id =
      .error "JSON object requested, multiple (or no) rows returned" := by
  unfold get_sync_status singleStatusQuery reset_sync
  rw [filter_filter_not]

/-! ### Pull engine lemmas (claims C2 and C6) -/

theorem mem_foldl_append {α β : Type} (f : α → List β) (l : List α) (x : β) :
    ∀ acc : List β,
      (x ∈ l.foldl (fun a p => a ++ f p) acc ↔ x ∈ acc ∨ ∃ p ∈ l, x ∈ f p) := by
  induction l with
  | nil => intro acc; simp
  | cons hd tl ih =>
      intro acc
      rw [List.foldl_cons, ih]
      simp [List.mem_append, List.mem_cons, or_assoc]

theorem mem_pullTableChanges (db : Database) (now : Nat)
    (user_id table_name entry_type : String) (since : Nat)
    (e : SyncPullEntry) :
    e ∈ pullTableChanges db now user_id table_name entry_type since ↔
      ∃ row, row ∈ db.tables table_name ∧
        rowMatches row "user_id" (.str user_id) = true ∧
        createdAtGte row since = true ∧
        e = { entry_type := entry_type, server_id := dictGet row "id",
              data := row, action := "upsert",
              modified_at := (dictGet row "created_at").getD (.nat now) } := by
  unfold pullTableChanges
  rw [List.mem_map]
  constructor
  · rintro ⟨row, hrow, rfl⟩
    rw [List.mem_filter] at hrow
    have hb := hrow.2
    rw [Bool.and_eq_true] at hb
    exact ⟨row, hrow.1, hb.1, hb.2, rfl⟩
  · rintro ⟨row, h1, h2, h3, rfl⟩
    exact ⟨row, List.mem_filter.mpr ⟨h1, by rw [Bool.and_eq_true]; exact ⟨h2, h3⟩⟩, rfl⟩

theorem entryConfigGet_of_mem :
    ∀ p ∈ ENTRY_CONFIG, entryConfigGet p.1 = some p.2 := by decide

theorem entryConfigGet_mem (et table date_field : String)
    (h : entryConfigGet et = some (table, date_field)) :
    ∃ p ∈ ENTRY_CONFIG, p.1 = et ∧ p.2 = (table, date_field) := by
  unfold entryConfigGet at h
  cases hf : ENTRY_CONFIG.find? (fun p => p.1 == et) with
  | none => rw [hf] at h; simp at h
  | some q =>
      rw [hf] at h
      simp only [Option.map_some'] at h
      injection h with h2
      have hq := List.find?_some hf
      have hqm := List.mem_of_find?_eq_some hf
      exact ⟨q, hqm, by simpa using hq, h2⟩

/-- The table row from which claim C2's counterexample is built: its
registry timestamp field `recorded_at` is new (10), while its `created_at`
is old (0). -/
def rowC2 : Dict :=
  [("id", .nat 1), ("user_id", .str "u"), ("created_at", .nat 0),
   ("recorded_at", .nat 10)]

/-- A server state with a single health_metrics row. -/
def stC2 : ServerState :=
  { db := { tables := fun t => if t = "health_metrics" then [rowC2] else [],
            nextId := 2 },
    sync_status := [] }

/-- C2 counterexample: the registry maps health_metric to timestamp field
recorded_at, and a user row with recorded_at = 10 ≥ checkpoint 5 is
nevertheless NOT returned by pull, because _pull_table_changes filters on
the hardcoded created_at column (here 0 < 5), contradicting the claim that
pull filters each table by the registry's own timestamp field. -/
theorem C2_counterexample :
    entryConfigGet "health_metric" = some ("health_metrics", "recorded_at") ∧
    rowC2 ∈ stC2.db.tables "health_metrics" ∧
    rowMatches rowC2 "user_id" (.str "u") = true ∧
    dictGet rowC2 "recorded_at" = some (.nat 10) ∧
    (5 : Nat) ≤ 10 ∧
    (pull_changes stC2 20 "u" "d" (some 5)).entries = [] := by
  refine ⟨by decide, by decide, by decide, by decide, by decide, ?_⟩
  rfl

/-- C2 (amended): for every registered entry type, pull selects rows of its
backing table by the hardcoded created_at column — an entry is returned iff
its row belongs to the user and has a numeric created_at at or after the
checkpoint — and each returned entry's modified_at is the row's created_at
value (defaulting to now); the registry's per-type timestamp field plays no
role in pull's filtering or in modified_at. -/
theorem C2_pull_filters_on_created_at (st : ServerState) (now : Nat)
    (user_id device_id : String) (since : Nat) (e : SyncPullEntry) :
    e ∈ (pull_changes st now user_id device_id (some since)).entries ↔
      ∃ et table date_field,
        entryConfigGet et = some (table, date_field) ∧
        e.entry_type = et ∧
        e.data ∈ st.db.tables table ∧
        rowMatches e.data "user_id" (.str user_id) = true ∧
        createdAtGte e.data since = true ∧
        e.server_id = dictGet e.data "id" ∧
        e.action = "upsert" ∧
        e.modified_at = (dictGet e.data "created_at").getD (.nat now) := by
  simp only [pull_changes]
  rw [mem_foldl_append]
  simp only [List.not_mem_nil, false_or]
  constructor
  · rintro ⟨p, hpmem, hpe⟩
    rw [mem_pullTableChanges] at hpe
    obtain ⟨row, hrow, huser, hgte, rfl⟩ := hpe
    exact ⟨p.1, p.2.1, p.2.2, entryConfigGet_of_mem p hpmem, rfl, hrow,
      huser, hgte, rfl, rfl, rfl⟩
  · rintro ⟨et, table, date_field, hcfg, het, hrow, huser, hgte, hsid, hact,
      hmod⟩
    obtain ⟨q, hqmem, hq1, hq2⟩ := entryConfigGet_mem et table date_field hcfg
    refine ⟨q, hqmem, ?_⟩
    rw [mem_pullTableChanges]
    refine ⟨e.data, ?_, huser, hgte, ?_⟩
    · rw [hq2]
      exact hrow
    · obtain ⟨e1, e2, e3, e4, e5⟩ := e
      simp only at het hsid hact hmod
      subst het
      subst hsid
      subst hact
      subst hmod
      rw [hq1]

/-- A mood row belonging to user `u`, present since time 3. -/
def rowW : Dict :=
  [("id", .nat 1), ("user_id", .str "u"), ("created_at", .nat 3),
   ("mood_score", .nat 7)]

/-- A server state with a single mood row. -/
def stW : ServerState :=
  { db := { tables := fun t => if t = "mood_entries" then [rowW] else [],
            nextId := 2 },
    sync_status := [] }

/-- C6: for every user and device, pull with last_sync_at absent returns the
same result as pull with the minimum representable timestamp (0) as
checkpoint, and this full resync returns every stored row of the user (with
a numeric created_at) across all registered entry types. -/
theorem C6_full_resync (st : ServerState) (now : Nat)
    (user_id device_id : String) :
    pull_changes st now user_id device_id none =
      pull_changes st now user_id device_id (some 0) ∧
    (∀ et table date_field, entryConfigGet et = some (table, date_field) →
      ∀ row ∈ st.db.tables table,
        rowMatches row "user_id" (.str user_id) = true →
        (∃ ts, dictGet row "created_at" = some (.nat ts)) →
        ∃ e ∈ (pull_changes st now user_id device_id none).entries,
          e.data = row) := by
  constructor
  · rfl
  · intro et table date_field hcfg row hrow huser hts
    obtain ⟨ts, hts⟩ := hts
    have hgte : createdAtGte row 0 = true := by
      simp [createdAtGte, hts]
    obtain ⟨q, hqmem, hq1, hq2⟩ := entryConfigGet_mem et table date_field hcfg
    refine ⟨{ entry_type := q.1, server_id := dictGet row "id", data := row,
              action := "upsert",
              modified_at := (dictGet row "created_at").getD (.nat now) },
            ?_, rfl⟩
    simp only [pull_changes]
    rw [mem_foldl_append]
    refine Or.inr ⟨q, hqmem, ?_⟩
    rw [mem_pullTableChanges]
    refine ⟨row, ?_, huser, hgte, rfl⟩
    rw [hq2]
    exact hrow

/-- Witness for C6 at a concrete one-row state. -/
theorem C6_full_resync_witness :
    ∃ e ∈ (pull_changes stW 7 "u" "d" none).entries, e.data = rowW :=
  (C6_full_resync stW 7 "u" "d").2 "mood" "mood_entries" "logged_at"
    (by decide) rowW (by decide) (by decide) ⟨3, by decide⟩

/-! ### Conflict tracking (claim C9) -/

/-- The mood row both devices edit: changed on the server at time 10, after
device devB's last successful sync at time 5. -/
def rowC9 : Dict :=
  [("id", .nat 1), ("user_id", .str "u"), ("created_at", .nat 10),
   ("mood_score", .nat 5)]

/-- Server state when device devB pushes: the shared row was modified after
devB's checkpoint (10 > 5). -/
def stC9 : ServerState :=
  { db := { tables := fun t => if t = "mood_entries" then [rowC9] else [],
            nextId := 2 },
    sync_status :=
      [{ user_id := "u", device_id := "devB", last_sync_at := 5,
         pending_changes := 0, sync_errors := [] }] }

/-- Device devB's divergent update to the same server row id 1. -/
def updB : SyncEntry :=
  { entry_type := "mood", local_id := "c1",
    data := [("id", .nat 1), ("mood_score", .nat 9)], action := .update,
    created_at := 11, modified_at := 11 }

/-- C9, evaluated at the claim's scenario: a second device pushes an update
to a server row that changed after its last sync (10 > 5); the push applies
the update (last-write-wins), yet get_conflicts afterwards returns the empty
list — the source's stub never detects or persists the divergence the claim
requires. -/
theorem C9_conflicts_stub :
    (5 : Nat) < 10 ∧
    (push_changes stC9 20 "u" "devB" [updB] (some 5)).2.synced_count = 1 ∧
    get_conflicts (push_changes stC9 20 "u" "devB" [updB] (some 5)).1
      "u" "devB" = [] := by
  refine ⟨by decide, ?_, rfl⟩
  rfl

/-! ### User isolation lemmas (claim C10) -/

theorem dictGet_none_keys (d : Dict) (k : String) (h : dictGet d k = none) :
    ∀ p ∈ d, p.1 ≠ k := by
  induction d with
  | nil => intro p hp; cases hp
  | cons q rest ih =>
      obtain ⟨k0, w⟩ := q
      intro p hp
      rcases List.mem_cons.mp hp with rfl | hin
      · intro hk
        have hk0 : k0 = k := hk
        subst hk0
        simp [dictGet] at h
      · by_cases h0 : k0 = k
        · subst h0
          simp [dictGet] at h
        · have h' : dictGet rest k = none := by simpa [dictGet, h0] using h
          exact ih h' p hin

theorem dictGet_some_mem (d : Dict) (k : String) (v : Value)
    (h : dictGet d k = some v) : (k, v) ∈ d := by
  induction d with
  | nil => cases h
  | cons q rest ih =>
      obtain ⟨k0, w⟩ := q
      by_cases h0 : k0 = k
      · subst h0
        simp [dictGet] at h
        rw [h]
        exact List.mem_cons_self _ _
      · have h' : dictGet rest k = some v := by simpa [dictGet, h0] using h
        exact List.mem_cons_of_mem _ (ih h')

theorem dictSet_key_val (d : Dict) (k : String) (v : Value) :
    ∀ p ∈ dictSet d k v, p.1 = k → p.2 = v := by
  intro p hp hk
  unfold dictSet at hp
  by_cases hs : (dictGet d k).isSome
  · rw [if_pos hs] at hp
    obtain ⟨q, hq, rfl⟩ := List.mem_map.mp hp
    by_cases hq1 : q.1 = k
    · rw [if_pos hq1]
    · rw [if_neg hq1] at hk
      exact absurd hk hq1
  · rw [if_neg hs] at hp
    rcases List.mem_append.mp hp with hin | hin
    · exact absurd hk
        (dictGet_none_keys d k (dictGet_none_of_isSome_false d k hs) p hin)
    · rw [List.mem_singleton.mp hin]

theorem dictSet_key_exists (d : Dict) (k : String) (v : Value) :
    ∃ p ∈ dictSet d k v, p.1 = k ∧ p.2 = v := by
  unfold dictSet
  by_cases hs : (dictGet d k).isSome
  · rw [if_pos hs]
    obtain ⟨w, hw⟩ := Option.isSome_iff_exists.mp hs
    exact ⟨(k, v),
      List.mem_map.mpr ⟨(k, w), dictGet_some_mem d k w hw, by simp⟩, rfl, rfl⟩
  · rw [if_neg hs]
    exact ⟨(k, v), List.mem_append_right _ (List.mem_singleton.mpr rfl),
      rfl, rfl⟩

theorem applyUpdate_cons (row : Dict) (q : String × Value) (rest : Dict) :
    applyUpdate row (q :: rest) = applyUpdate (dictSet row q.1 q.2) rest :=
  rfl

theorem applyUpdate_get_not_key (d : Dict) : ∀ (row : Dict) (k : String),
    (∀ p ∈ d, p.1 ≠ k) →
    dictGet (applyUpdate row d) k = dictGet row k := by
  induction d with
  | nil => intro row k _; rfl
  | cons q rest ih =>
      intro row k h
      rw [applyUpdate_cons,
        ih _ k (fun p hp => h p (List.mem_cons_of_mem _ hp))]
      exact dictGet_dictSet_ne _ _ _ _
        (Ne.symm (h q (List.mem_cons_self _ _)))

theorem applyUpdate_get_key (v : Value) : ∀ (d row : Dict) (k : String),
    (∀ p ∈ d, p.1 = k → p.2 = v) → (∃ p ∈ d, p.1 = k) →
    dictGet (applyUpdate row d) k = some v := by
  intro d
  induction d with
  | nil =>
      rintro row k _ ⟨p, hp, _⟩
      cases hp
  | cons q rest ih =>
      intro row k hall hex
      rw [applyUpdate_cons]
      by_cases hr : ∃ p ∈ rest, p.1 = k
      · exact ih _ k (fun p hp hk => hall p (List.mem_cons_of_mem _ hp) hk) hr
      · obtain ⟨p, hp, hpk⟩ := hex
        rcases List.mem_cons.mp hp with rfl | hin
        · have hv : p.2 = v := hall p (List.mem_cons_self _ _) hpk
          rw [applyUpdate_get_not_key rest _ k
            (fun r hrm hk => hr ⟨r, hrm, hk⟩)]
          rw [hpk, hv]
          exact dictGet_dictSet_self row k v
        · exact absurd ⟨p, hin, hpk⟩ hr

theorem filter_map_eq_of {α : Type} (p : α → Bool) (g : α → α) (l : List α)
    (h : ∀ a ∈ l, p (g a) = p a ∧ (p a = true → g a = a)) :
    (l.map g).filter p = l.filter p := by
  induction l with
  | nil => rfl
  | cons a rest ih =>
      have ha := h a (List.mem_cons_self _ _)
      have hrest := ih (fun b hb => h b (List.mem_cons_of_mem _ hb))
      rw [List.map_cons]
      by_cases hpa : p a = true
      · rw [ha.2 hpa]
        simp only [List.filter_cons, hpa, if_true, hrest]
      · have h1 : p a = false := Bool.eq_false_iff.mpr hpa
        have h2 : p (g a) = false := by rw [ha.1, h1]
        simp only [List.filter_cons, h1, h2, Bool.false_eq_true, if_false,
          hrest]

theorem filter_filter_of_imp {α : Type} (p q : α → Bool) (l : List α)
    (h : ∀ a ∈ l, p a = true → q a = true) :
    (l.filter q).filter p = l.filter p := by
  induction l with
  | nil => rfl
  | cons a rest ih =>
      have hrest := ih (fun b hb => h b (List.mem_cons_of_mem _ hb))
      by_cases hq : q a = true
      · by_cases hp : p a = true
        · simp only [List.filter_cons, hq, hp, if_true, hrest]
        · have hp' : p a = false := Bool.eq_false_iff.mpr hp
          simp only [List.filter_cons, hq, hp', Bool.false_eq_true, if_true,
            if_false, hrest]
      · have hq' : q a = false := Bool.eq_false_iff.mpr hq
        have hp' : p a = false := by
          cases hpa : p a
          · rfl
          · exact absurd (h a (List.mem_cons_self _ _) hpa) hq
        simp only [List.filter_cons, hq', hp', Bool.false_eq_true, if_false,
          hrest]

theorem rowMatches_iff (row : Dict) (col : String) (v : Value) :
    rowMatches row col v = true ↔ dictGet row col = some v := by
  simp [rowMatches]

theorem rowMatches_user_false (row : Dict) (u u' : String) (hne : u' ≠ u)
    (h : dictGet row "user_id" = some (.str u)) :
    rowMatches row "user_id" (.str u') = false := by
  unfold rowMatches
  rw [h, beq_eq_false_iff_ne]
  intro hc
  injection hc with hc1
  injection hc1 with hc2
  exact hne hc2.symm

theorem insertRow_user (nextId now : Nat) (d : Dict) :
    dictGet (insertRow nextId now d) "user_id" = dictGet d "user_id" := by
  unfold insertRow
  by_cases h1 : (dictGet d "id").isSome
  · simp only [h1, if_true]
    by_cases h2 : (dictGet d "created_at").isSome
    · simp only [h2, if_true]
    · simp only [h2, Bool.false_eq_true, if_false]
      exact dictGet_dictSet_ne _ _ _ _ (by decide)
  · simp only [h1, Bool.false_eq_true, if_false]
    by_cases h2 :
        (dictGet (dictSet d "id" (.nat nextId)) "created_at").isSome
    · simp only [h2, if_true]
      exact dictGet_dictSet_ne _ _ _ _ (by decide)
    · simp only [h2, Bool.false_eq_true, if_false]
      rw [dictGet_dictSet_ne _ _ _ _ (by decide),
        dictGet_dictSet_ne _ _ _ _ (by decide)]

theorem applyUpdate_popped_user (edata : Dict) (u : String) (r : Dict) :
    dictGet
      (applyUpdate r
        ((dictSet edata "user_id" (.str u)).filter (fun p => p.1 != "id")))
      "user_id" = some (.str u) := by
  apply applyUpdate_get_key
  · intro p hp hk
    exact dictSet_key_val edata "user_id" (.str u) p
      (List.mem_of_mem_filter hp) hk
  · obtain ⟨p, hp, hk, hv⟩ := dictSet_key_exists edata "user_id" (.str u)
    refine ⟨p, List.mem_filter.mpr ⟨hp, ?_⟩, hk⟩
    rw [hk]
    decide

/-- Rows of a table that belong to user `u`. -/
def filterUser (u : String) (rows : List Dict) : List Dict :=
  rows.filter (fun row => rowMatches row "user_id" (.str u))

theorem processEntry_frame (db : Database) (now : Nat) (u : String)
    (entry : SyncEntry) (db' : Database)
    (hok : processEntry db now u entry = .ok db')
    (u' : String) (hne : u' ≠ u) (t : String) :
    filterUser u' (db'.tables t) = filterUser u' (db.tables t) := by
  cases hcfg : entryConfigGet entry.entry_type with
  | none =>
      simp only [processEntry, hcfg] at hok
      exact Except.noConfusion hok
  | some cfg =>
      cases ha : entry.action with
      | create =>
          simp only [processEntry, hcfg, ha, Except.ok.injEq] at hok
          subst hok
          unfold dbInsert filterUser
          simp only []
          by_cases htt : t = cfg.1
          · rw [if_pos htt, List.filter_append]
            have huser : dictGet
                (insertRow db.nextId now
                  (dictSet entry.data "user_id" (.str u))) "user_id" =
                some (.str u) := by
              rw [insertRow_user, dictGet_dictSet_self]
            have hf := rowMatches_user_false _ u u' hne huser
            simp [hf, filterUser]
          · rw [if_neg htt]
      | update =>
          simp only [processEntry, hcfg, ha, dictPop] at hok
          cases hid : dictGet (dictSet entry.data "user_id" (.str u)) "id" with
          | none =>
              rw [hid] at hok
              simp only [Except.ok.injEq] at hok
              subst hok
              rfl
          | some sid =>
              rw [hid] at hok
              simp only [] at hok
              by_cases htr : sid.truthy = true
              · rw [if_pos htr] at hok
                simp only [Except.ok.injEq] at hok
                subst hok
                unfold dbUpdateWhere filterUser
                simp only []
                by_cases htt : t = cfg.1
                · rw [if_pos htt]
                  apply filter_map_eq_of
                  intro r hr
                  by_cases hc : (rowMatches r "id" sid &&
                      rowMatches r "user_id" (.str u)) = true
                  · have hc' := hc
                    rw [Bool.and_eq_true] at hc'
                    have hu : dictGet r "user_id" = some (.str u) :=
                      (rowMatches_iff _ _ _).mp hc'.2
                    have hpr := rowMatches_user_false r u u' hne hu
                    constructor
                    · rw [if_pos hc]
                      have hu2 := applyUpdate_popped_user entry.data u r
                      rw [rowMatches_user_false _ u u' hne hu2, hpr]
                    · intro hp
                      rw [hpr] at hp
                      cases hp
                  · constructor
                    · rw [if_neg hc]
                    · intro _
                      rw [if_neg hc]
                · rw [if_neg htt]
              · rw [if_neg htr] at hok
                simp only [Except.ok.injEq] at hok
                subst hok
                rfl
      | delete =>
          simp only [processEntry, hcfg, ha] at hok
          cases hid : dictGet (dictSet entry.data "user_id" (.str u)) "id" with
          | none =>
              rw [hid] at hok
              simp only [Except.ok.injEq] at hok
              subst hok
              rfl
          | some sid =>
              rw [hid] at hok
              simp only [] at hok
              by_cases htr : sid.truthy = true
              · rw [if_pos htr] at hok
                simp only [Except.ok.injEq] at hok
                subst hok
                unfold dbDeleteWhere filterUser
                simp only []
                by_cases htt : t = cfg.1
                · rw [if_pos htt]
                  apply filter_filter_of_imp
                  intro r hr hp
                  have hu' : dictGet r "user_id" = some (.str u') :=
                    (rowMatches_iff _ _ _).mp hp
                  have hf := rowMatches_user_false r u' u (Ne.symm hne) hu'
                  simp [hf]
                · rw [if_neg htt]
              · rw [if_neg htr] at hok
                simp only [Except.ok.injEq] at hok
                subst hok
                rfl

theorem pushLoop_frame (now : Nat) (u : String) :
    ∀ (entries : List SyncEntry) (db : Database) (synced : Nat)
      (failed : List FailedEntry) (u' : String), u' ≠ u → ∀ t : String,
      filterUser u'
          ((pushLoop now u (db, synced, failed) entries).1.tables t) =
        filterUser u' (db.tables t) := by
  intro entries
  induction entries with
  | nil => intro db synced failed u' hne t; rfl
  | cons e rest ih =>
      intro db synced failed u' hne t
      cases h : processEntry db now u e with
      | ok db' =>
          rw [show pushLoop now u (db, synced, failed) (e :: rest) =
              pushLoop now u (db', synced + 1, failed) rest by
            simp [pushLoop, h]]
          rw [ih db' (synced + 1) failed u' hne t]
          exact processEntry_frame db now u e db' h u' hne t
      | error err =>
          rw [show pushLoop now u (db, synced, failed) (e :: rest) =
              pushLoop now u
                (db, synced,
                 failed ++ [FailedEntry.mk e.local_id e.entry_type err])
                rest by simp [pushLoop, h]]
          exact ih db synced _ u' hne t

/-- C10: every storage mutation performed by push is scoped to the calling
user — a create stamps the caller's user_id into the inserted row, and every
update and delete filters on both the row id and the caller's user_id — so a
push by one user leaves the rows belonging to every other user in every
table unchanged. -/
theorem C10_user_isolation (st : ServerState) (now : Nat)
    (user_id device_id : String) (entries : List SyncEntry)
    (last_sync_at : Option Nat) (other : String) (hne : other ≠ user_id)
    (t : String) :
    filterUser other
        ((push_changes st now user_id device_id entries
          last_sync_at).1.db.tables t) =
      filterUser other (st.db.tables t) := by
  rcases hp : pushLoop now user_id (st.db, 0, []) entries with ⟨db', n, f⟩
  have h := pushLoop_frame now user_id entries st.db 0 [] other hne t
  rw [hp] at h
  simp only [push_changes, hp]
  exact h

/-- A mood row that belongs to user bob. -/
def bobRow : Dict :=
  [("id", .nat 1), ("user_id", .str "bob"), ("created_at", .nat 2),
   ("mood_score", .nat 4)]

/-- A state holding one mood row that belongs to user bob. -/
def stBob : ServerState :=
  { db := { tables := fun t => if t = "mood_entries" then [bobRow] else [],
            nextId := 2 },
    sync_status := [] }

/-- Witness for C10: alice's create push leaves bob's mood rows unchanged. -/
theorem C10_user_isolation_witness :
    filterUser "bob"
        ((push_changes stBob 6 "alice" "d" [moodEntry]
          none).1.db.tables "mood_entries") =
      filterUser "bob" (stBob.db.tables "mood_entries") :=
  C10_user_isolation stBob 6 "alice" "d" [moodEntry] none "bob"
    (by decide) "mood_entries"

end WellnessSync
